import Mathlib

/-!
Verification of the claude-mem capture engine against its specification.

This file gives a shallow embedding, in Lean 4, of the parts of the
claude-mem source that the verified claims are about:

* `GeminiAgent` (conversation-history truncation, the multi-turn query
  retry loop, backoff-delay computation, the provider-fallback error
  handler, response parsing, and the init-phase session updates);
* the Gemini free-tier RPM rate limiter (`enforceRateLimitForModel`);
* the project whitelist/blacklist filter (`isProjectIgnored`);
* the file-based spawn lock (`acquireSpawnLock` / `releaseSpawnLock`).

JavaScript strings are modelled as Lean `String`, JS numbers used as
integers (timestamps, counts, delays in ms) as `Nat`, and JS floating
point arithmetic (backoff jitter) as exact rational arithmetic over `ℚ`.
Effects are made explicit: the wall clock, `Math.random`, the outcome of
each `fetch`, and the lock-file state are passed as arguments, and
functions return the values and state updates the source code produces.
-/

/-- One turn of the shared conversation history (worker-types
`ConversationMessage`): a role (user / assistant) and text content. -/
structure ConversationMessage where
  role : String
  content : String
deriving Repr, DecidableEq

/-- Embeds `GeminiAgent.estimateTokens`: `Math.ceil(text.length / 4)`
with `CHARS_PER_TOKEN_ESTIMATE = 4`.  On `Nat`, `(n + 3) / 4` is the
ceiling of `n / 4`. -/
def estimateTokens (text : String) : Nat :=
  (text.length + 3) / 4

/-- Total estimated token cost of a history, summed per message, as in
`history.reduce((sum, m) => sum + this.estimateTokens(m.content), 0)`. -/
def tokenSum (history : List ConversationMessage) : Nat :=
  (history.map (fun m => estimateTokens m.content)).sum

/-- Embeds the sliding-window loop of `GeminiAgent.truncateHistory`:
messages are visited most-recent first (the argument list is the reversed
history), each is prepended (`unshift`) to the accumulator unless either
limit would be exceeded, in which case the loop breaks. -/
def slidingWindow (maxMsgs maxTok : Nat) :
    List ConversationMessage → Nat → List ConversationMessage → List ConversationMessage
  | acc, _, [] => acc
  | acc, tokenCount, m :: older =>
    if maxMsgs ≤ acc.length ∨ maxTok < tokenCount + estimateTokens m.content then
      acc
    else
      slidingWindow maxMsgs maxTok (m :: acc) (tokenCount + estimateTokens m.content) older

/-- Embeds `GeminiAgent.truncateHistory`.  The limits are passed as
parameters; the source reads them from settings with defaults
`DEFAULT_GEMINI_MAX_CONTEXT_MESSAGES = 20` and
`DEFAULT_GEMINI_MAX_ESTIMATED_TOKENS = 100000`.  A history within both
the message-count and the token limit is returned unchanged; otherwise
the most recent messages that fit are kept. -/
def truncateHistory (maxMsgs maxTok : Nat)
    (history : List ConversationMessage) : List ConversationMessage :=
  if history.length ≤ maxMsgs ∧ tokenSum history ≤ maxTok then
    history
  else
    slidingWindow maxMsgs maxTok [] 0 history.reverse

/-- The sliding window prepends some initial segment of its input list to
the accumulator (in reversed order). -/
lemma slidingWindow_shape (maxMsgs maxTok : Nat) :
    ∀ (l acc : List ConversationMessage) (tc : Nat),
      ∃ j, slidingWindow maxMsgs maxTok acc tc l = (l.take j).reverse ++ acc := by
  intro l
  induction l with
  | nil =>
    intro acc tc
    exact ⟨0, rfl⟩
  | cons m older ih =>
    intro acc tc
    rw [slidingWindow]
    split
    · exact ⟨0, rfl⟩
    · obtain ⟨j, hj⟩ := ih (m :: acc) (tc + estimateTokens m.content)
      refine ⟨j + 1, ?_⟩
      rw [hj, List.take_succ_cons, List.reverse_cons, List.append_assoc]
      rfl

/-- The sliding window never grows the accumulator beyond the message
limit. -/
lemma slidingWindow_length (maxMsgs maxTok : Nat) :
    ∀ (l acc : List ConversationMessage) (tc : Nat),
      acc.length ≤ maxMsgs →
      (slidingWindow maxMsgs maxTok acc tc l).length ≤ maxMsgs := by
  intro l
  induction l with
  | nil =>
    intro acc tc h
    exact h
  | cons m older ih =>
    intro acc tc h
    rw [slidingWindow]
    split
    · exact h
    · rename_i hcond
      push_neg at hcond
      exact ih (m :: acc) _ (by simpa using hcond.1)

/-- The sliding window keeps the accumulated token estimate within the
token limit. -/
lemma slidingWindow_tokens (maxMsgs maxTok : Nat) :
    ∀ (l acc : List ConversationMessage) (tc : Nat),
      tokenSum acc = tc → tc ≤ maxTok →
      tokenSum (slidingWindow maxMsgs maxTok acc tc l) ≤ maxTok := by
  intro l
  induction l with
  | nil =>
    intro acc tc heq hle
    rw [slidingWindow]
    exact le_of_eq_of_le heq hle
  | cons m older ih =>
    intro acc tc heq hle
    rw [slidingWindow]
    split
    · exact le_of_eq_of_le heq hle
    · rename_i hcond
      push_neg at hcond
      refine ih (m :: acc) _ ?_ hcond.2
      simp only [tokenSum, List.map_cons, List.sum_cons]
      simp only [tokenSum] at heq
      omega

/-- C1.  `GeminiAgent.truncateHistory` returns a contiguous suffix of the
input history (oldest turns dropped first) whose message count is at most
the configured maximum and whose estimated token total (per-message
`ceil(length / 4)`) is at most the configured budget; a history already
within both limits is returned unchanged.  (The function is pure: it
builds a fresh array and never mutates its argument.) -/
theorem truncateHistory_spec (maxMsgs maxTok : Nat)
    (history : List ConversationMessage) :
    (truncateHistory maxMsgs maxTok history) <:+ history ∧
    (truncateHistory maxMsgs maxTok history).length ≤ maxMsgs ∧
    tokenSum (truncateHistory maxMsgs maxTok history) ≤ maxTok ∧
    (history.length ≤ maxMsgs → tokenSum history ≤ maxTok →
      truncateHistory maxMsgs maxTok history = history) := by
  unfold truncateHistory
  split
  · rename_i hin
    exact ⟨List.suffix_refl _, hin.1, hin.2, fun _ _ => rfl⟩
  · rename_i hout
    refine ⟨?_, ?_, ?_, fun h1 h2 => absurd ⟨h1, h2⟩ hout⟩
    · obtain ⟨j, hj⟩ := slidingWindow_shape maxMsgs maxTok history.reverse [] 0
      rw [hj, List.append_nil]
      have hpre : (history.reverse.take j) <+: history.reverse :=
        List.take_prefix j history.reverse
      have := hpre.reverse
      simpa using this
    · exact slidingWindow_length maxMsgs maxTok history.reverse [] 0 (by simp)
    · exact slidingWindow_tokens maxMsgs maxTok history.reverse [] 0 rfl (Nat.zero_le _)

/-- Witness for C1 at the default limits (20 messages, 100000 tokens) on
a concrete two-message history that is already within both limits. -/
theorem truncateHistory_spec_witness :
    truncateHistory 20 100000
      [⟨"user", "hello"⟩, ⟨"assistant", "world"⟩] =
      [⟨"user", "hello"⟩, ⟨"assistant", "world"⟩] :=
  (truncateHistory_spec 20 100000
      [⟨"user", "hello"⟩, ⟨"assistant", "world"⟩]).2.2.2
    (by decide) (by decide)

/-- Embeds `isProjectIgnored` (shared worker-utils): the whitelist
(`CLAUDE_MEM_ALLOWED_PROJECTS_ONLY`) and blacklist
(`CLAUDE_MEM_IGNORED_PROJECTS`) are passed as the already-parsed name
lists the cached settings accessors return. -/
def isProjectIgnored (allowedOnly ignored projectNames : List String) : Bool :=
  if 0 < allowedOnly.length then
    !(projectNames.any (fun name => allowedOnly.contains name))
  else if 0 < ignored.length then
    projectNames.any (fun name => ignored.contains name)
  else
    false

/-- C9.  `isProjectIgnored` gives the whitelist strict precedence: with a
non-empty whitelist a set of names is ignored exactly when none of them
is whitelisted, and the blacklist is never consulted (the result does not
depend on it); with an empty whitelist and non-empty blacklist the set is
ignored exactly when some name is blacklisted; with both lists empty
nothing is ignored. -/
theorem isProjectIgnored_spec (allowedOnly ignored projectNames : List String) :
    (allowedOnly ≠ [] →
      (isProjectIgnored allowedOnly ignored projectNames = true ↔
        ∀ name ∈ projectNames, name ∉ allowedOnly) ∧
      ∀ ignored2, isProjectIgnored allowedOnly ignored projectNames =
        isProjectIgnored allowedOnly ignored2 projectNames) ∧
    (allowedOnly = [] → ignored ≠ [] →
      (isProjectIgnored allowedOnly ignored projectNames = true ↔
        ∃ name ∈ projectNames, name ∈ ignored)) ∧
    (allowedOnly = [] → ignored = [] →
      isProjectIgnored allowedOnly ignored projectNames = false) := by
  refine ⟨fun hA => ⟨?_, ?_⟩, fun hA hI => ?_, fun hA hI => ?_⟩
  · have hlen : 0 < allowedOnly.length := List.length_pos.mpr hA
    simp [isProjectIgnored, hlen, List.any_eq_true]
  · intro ignored2
    have hlen : 0 < allowedOnly.length := List.length_pos.mpr hA
    simp [isProjectIgnored, hlen]
  · have hlen : 0 < ignored.length := List.length_pos.mpr hI
    subst hA
    simp [isProjectIgnored, hlen, List.any_eq_true]
  · subst hA
    subst hI
    simp [isProjectIgnored]

/-- Witness for C9: with whitelist locked to one project, a context whose
names miss the whitelist is ignored no matter what the blacklist says. -/
theorem isProjectIgnored_spec_witness :
    (isProjectIgnored ["alpha"] ["beta"] ["gamma"] = true ↔
      ∀ name ∈ ["gamma"], name ∉ ["alpha"]) ∧
    isProjectIgnored ["alpha"] ["beta"] ["gamma"] =
      isProjectIgnored ["alpha"] ["gamma"] ["gamma"] :=
  ⟨((isProjectIgnored_spec ["alpha"] ["beta"] ["gamma"]).1 (by decide)).1,
   ((isProjectIgnored_spec ["alpha"] ["beta"] ["gamma"]).1 (by decide)).2 ["gamma"]⟩

/-- Contents of the spawn lock file as recorded by `acquireSpawnLock`:
the owning process id and the creation timestamp (ms). -/
structure LockInfo where
  pid : Nat
  timestamp : Nat
deriving Repr, DecidableEq

/-- State of the spawn lock file on disk: absent, holding parseable JSON
lock info, or holding unparseable bytes. -/
inductive SpawnLockFile
  | valid (info : LockInfo)
  | corrupted
deriving Repr, DecidableEq

/-- Threshold (ms) past which an existing lock counts as stale. -/
def LOCK_STALE_THRESHOLD_MS : Nat := 60000

/-- Embeds the existing-lock inspection at the top of `acquireSpawnLock`:
returns whether the code proceeds to create its own lock, and the file
state it leaves behind.  A stale (older than the threshold) or dead-owner
lock is unlinked; a corrupted file is unlinked; a fresh lock held by a
live process makes the call return `false` with the file untouched. -/
def acquireCheck (now : Nat) (alive : Nat → Bool) :
    Option SpawnLockFile → Bool × Option SpawnLockFile
  | none => (true, none)
  | some (.valid info) =>
    if LOCK_STALE_THRESHOLD_MS < now - info.timestamp || !alive info.pid then
      (true, none)
    else
      (false, some (.valid info))
  | some .corrupted => (true, none)

/-- Embeds the `writeFileSync(..., flag wx)` step of `acquireSpawnLock`:
the exclusive-create write succeeds only when the file is absent, and an
existing file (EEXIST) makes the call return `false` leaving the file
unchanged. -/
def wxCreate (selfPid now : Nat) :
    Option SpawnLockFile → Bool × Option SpawnLockFile
  | none => (true, some (.valid ⟨selfPid, now⟩))
  | some c => (false, some c)

/-- Embeds `acquireSpawnLock` run without interleaving: the inspection
step followed (when it did not return `false`) by the exclusive-create
write. -/
def acquireSpawnLock (selfPid now : Nat) (alive : Nat → Bool)
    (st : Option SpawnLockFile) : Bool × Option SpawnLockFile :=
  match acquireCheck now alive st with
  | (true, st1) => wxCreate selfPid now st1
  | (false, st1) => (false, st1)

/-- Embeds `releaseSpawnLock`: the file is unlinked only when it parses
and records the calling process's pid; a parse failure is caught and
leaves the file alone. -/
def releaseSpawnLock (selfPid : Nat) :
    Option SpawnLockFile → Option SpawnLockFile
  | none => none
  | some (.valid info) =>
    if info.pid == selfPid then none else some (.valid info)
  | some .corrupted => some .corrupted

/-- C10.  The spawn lock is never taken from a live owner:
`acquireSpawnLock` returns `false` without touching the lock file when
the existing lock is younger than 60 seconds and its recorded process is
alive; its own lock is created only through the exclusive-create write,
which fails (returning `false`, file unchanged) when a file exists; and
`releaseSpawnLock` deletes the file only when it records the caller's
own pid, leaving it unchanged otherwise. -/
theorem spawnLock_spec (selfPid now : Nat) (alive : Nat → Bool) :
    (∀ info : LockInfo, now - info.timestamp < 60000 → alive info.pid = true →
      acquireSpawnLock selfPid now alive (some (.valid info)) =
        (false, some (.valid info))) ∧
    (∀ st1 : SpawnLockFile, wxCreate selfPid now (some st1) = (false, some st1)) ∧
    wxCreate selfPid now none = (true, some (.valid ⟨selfPid, now⟩)) ∧
    (∀ info : LockInfo, info.pid ≠ selfPid →
      releaseSpawnLock selfPid (some (.valid info)) = some (.valid info)) ∧
    releaseSpawnLock selfPid (some .corrupted) = some .corrupted ∧
    (∀ info : LockInfo, releaseSpawnLock selfPid (some (.valid info)) = none →
      info.pid = selfPid) := by
  refine ⟨fun info hage halive => ?_, fun st1 => rfl, rfl,
    fun info hne => ?_, rfl, fun info hdel => ?_⟩
  · have hcond : (LOCK_STALE_THRESHOLD_MS < now - info.timestamp
        || !alive info.pid) = false := by
      simp [LOCK_STALE_THRESHOLD_MS, halive]
      omega
    simp [acquireSpawnLock, acquireCheck, hcond]
  · have : (info.pid == selfPid) = false := by
      simp [hne]
    simp [releaseSpawnLock, this]
  · by_contra hne
    have : (info.pid == selfPid) = false := by
      simp [hne]
    simp [releaseSpawnLock, this] at hdel

/-- Witness for C10: a 30-second-old lock owned by a live process 42
blocks acquisition by process 7 at time 90000 and the file survives; and
the non-owner release leaves the file in place. -/
theorem spawnLock_spec_witness :
    acquireSpawnLock 7 90000 (fun _ => true)
      (some (.valid ⟨42, 60000⟩)) = (false, some (.valid ⟨42, 60000⟩)) ∧
    releaseSpawnLock 7 (some (.valid ⟨42, 60000⟩)) = some (.valid ⟨42, 60000⟩) :=
  ⟨(spawnLock_spec 7 90000 (fun _ => true)).1 ⟨42, 60000⟩ (by decide) rfl,
   (spawnLock_spec 7 90000 (fun _ => true)).2.2.2.1 ⟨42, 60000⟩ (by decide)⟩

/-- A JavaScript `Error` as the Gemini agent observes it: only its
message string matters to the classifiers. -/
structure JsError where
  message : String
deriving Repr, DecidableEq

/-- ASCII lowercasing of a string, embedding the JS
`toLowerCase()` call on the (ASCII) error messages involved. -/
def toLowerString (s : String) : String :=
  ⟨s.data.map Char.toLower⟩

/-- JS `String.prototype.includes`: `sub` occurs contiguously in `s`. -/
def strContains (s sub : String) : Bool :=
  decide (sub.data <:+: s.data)

/-- Embeds `isRateLimitError` from the GeminiAgent module: an `Error`
whose lowercased message mentions 429, rate limiting, resource
exhaustion or quota exhaustion.  (A thrown non-`Error` value, for which
the source returns `false`, is not modelled.) -/
def isRateLimitError (e : JsError) : Bool :=
  let msg := toLowerString e.message
  strContains msg "429" || strContains msg "rate limit" ||
    strContains msg "resource_exhausted" || strContains msg "quota exceeded"

/-- One `parts` entry of a Gemini candidate: optional text and the
optional thinking marker. -/
structure GeminiPart where
  text : Option String
  thought : Option Bool
deriving Repr, DecidableEq

/-- The `content` object of a Gemini candidate. -/
structure CandidateContent where
  parts : Option (List GeminiPart)
deriving Repr, DecidableEq

/-- One candidate of a Gemini API response. -/
structure GeminiCandidate where
  content : Option CandidateContent
  finishReason : Option String
deriving Repr, DecidableEq

/-- The `usageMetadata` object of a Gemini API response. -/
structure UsageMetadata where
  totalTokenCount : Option Nat
deriving Repr, DecidableEq

/-- A decoded Gemini API response body (the fields
`GeminiAgent.parseGeminiResponse` reads). -/
structure GeminiResponse where
  candidates : Option (List GeminiCandidate)
  usageMetadata : Option UsageMetadata
deriving Repr, DecidableEq

/-- The value `parseGeminiResponse` returns: extracted text content and,
when content is present, the reported token usage. -/
structure ParsedResponse where
  content : String
  tokensUsed : Option Nat
deriving Repr, DecidableEq

/-- The chain `data.candidates?.[0]?.content?.parts || []`: the parts of
the first candidate, or the empty list when any link is missing. -/
def firstCandidateParts (data : GeminiResponse) : List GeminiPart :=
  match data.candidates with
  | some (c :: _) =>
    match c.content with
    | some cc => cc.parts.getD []
    | none => []
  | _ => []

/-- The filter `p => !p.thought && p.text` (JS truthiness: a part is kept
when its thinking marker is absent or false and its text is a non-empty
string). -/
def partIsContent (p : GeminiPart) : Bool :=
  !(p.thought.getD false) && !(p.text.getD "").isEmpty

/-- Embeds `GeminiAgent.parseGeminiResponse`: concatenate the non-thought
text parts of the first candidate; when nothing remains, return empty
content (and no token count) rather than throwing. -/
def parseGeminiResponse (data : GeminiResponse) : ParsedResponse :=
  let parts := firstCandidateParts data
  let contentParts := parts.filter partIsContent
  let content := String.join (contentParts.map (fun p => p.text.getD ""))
  if content.isEmpty then
    { content := "", tokensUsed := none }
  else
    { content := content,
      tokensUsed := data.usageMetadata.bind (fun u => u.totalTokenCount) }

/-- The outcome of one `fetch` of the Gemini endpoint, as observed by the
retry loop in `queryGeminiMultiTurn`: an HTTP-ok JSON body, a non-ok
status with its error text, or a thrown error (network failure and the
like). -/
inductive FetchOutcome
  | ok (data : GeminiResponse)
  | httpError (status : Nat) (errorText : String)
  | thrown (e : JsError)
deriving Repr, DecidableEq

/-- The error `queryGeminiMultiTurn` constructs for a non-ok response. -/
def geminiApiError (status : Nat) (errorText : String) : JsError :=
  ⟨"Gemini API error: " ++ toString status ++ " - " ++ errorText⟩

/-- Result of the retry loop, tagged with the number of HTTP requests
issued: a parsed success, a thrown error, or loop exhaustion (the
unreachable trailing `throw lastError`). -/
inductive QueryResult
  | success (r : ParsedResponse) (requests : Nat)
  | failure (e : JsError) (requests : Nat)
  | exhausted (requests : Nat)
deriving Repr, DecidableEq

/-- Embeds the retry loop of `GeminiAgent.queryGeminiMultiTurn`.  The
`fetch` outcomes are supplied as a list consumed one per attempt.  A 429
status (or any error classified by `isRateLimitError`, which catches the
thrown non-ok error as well) is retried while attempts remain; anything
else is thrown.  Waiting (backoff or the provider-suggested delay) does
not affect control flow and is modelled separately. -/
def geminiRetryLoop (maxAttempts : Nat) :
    List FetchOutcome → Nat → QueryResult
  | [], attempt => .exhausted attempt
  | o :: rest, attempt =>
    if attempt < maxAttempts then
      match o with
      | .ok data => .success (parseGeminiResponse data) (attempt + 1)
      | .httpError status errorText =>
        if status == 429 && attempt + 1 < maxAttempts then
          geminiRetryLoop maxAttempts rest (attempt + 1)
        else if isRateLimitError (geminiApiError status errorText) &&
            attempt + 1 < maxAttempts then
          geminiRetryLoop maxAttempts rest (attempt + 1)
        else
          .failure (geminiApiError status errorText) (attempt + 1)
      | .thrown e =>
        if isRateLimitError e && attempt + 1 < maxAttempts then
          geminiRetryLoop maxAttempts rest (attempt + 1)
        else
          .failure e (attempt + 1)
    else
      .exhausted attempt

/-- Embeds `queryGeminiMultiTurn` as seen from its caller: the retry loop
started at attempt 0.  The source default for `maxAttempts` is
`DEFAULT_RETRY_MAX_ATTEMPTS = 5`. -/
def queryGeminiMultiTurn (maxAttempts : Nat) (outcomes : List FetchOutcome) :
    QueryResult :=
  geminiRetryLoop maxAttempts outcomes 0

/-- Number of HTTP requests a query result accounts for. -/
def requestCount : QueryResult → Nat
  | .success _ n => n
  | .failure _ n => n
  | .exhausted n => n

/-- The per-session state the Gemini agent reads and writes on the
verified paths (a projection of `ActiveSession`). -/
structure SessionState where
  memorySessionId : Option String
  conversationHistory : List ConversationMessage
deriving Repr, DecidableEq

/-- The two ways the catch block of `GeminiAgent.startSession` can end:
rethrowing the error to the caller, or transferring control to the
fallback agent with a session object. -/
inductive HandlerOutcome
  | rethrown (e : JsError)
  | fellBackTo (s : SessionState)
deriving Repr, DecidableEq

/-- Embeds the catch block of `GeminiAgent.startSession`.  The
classifiers `isAbortError` and `shouldFallbackToClaude` live in the
shared agents module and are passed as parameters; `fallbackConfigured`
states whether `setFallbackAgent` installed a fallback agent.  An abort
is rethrown before fallback is even considered; otherwise, when the
classifier approves and a fallback agent exists, that agent's
`startSession` is invoked with the very same session object. -/
def handleStartSessionError
    (abortClassifier : JsError → Bool)
    (fallbackClassifier : JsError → Bool → Bool)
    (disableFallback fallbackConfigured : Bool)
    (session : SessionState) (e : JsError) : HandlerOutcome :=
  if abortClassifier e then
    .rethrown e
  else if fallbackClassifier e disableFallback && fallbackConfigured then
    .fellBackTo session
  else
    .rethrown e

/-- C2.  When `startSession` catches a non-abort error that
`shouldFallbackToClaude` classifies as eligible and a fallback agent is
configured, it calls the fallback agent's `startSession` with the very
same session object, so the accumulated `conversationHistory` crosses
the provider switch unchanged.  Five consecutive 429 responses exhaust
the default five-attempt retry budget of `queryGeminiMultiTurn`, making
it throw a rate-limit-classified error, which is how the session reaches
this path and continues on the secondary provider. -/
theorem startSession_fallback_same_session
    (abortClassifier : JsError → Bool) (fallbackClassifier : JsError → Bool → Bool)
    (disableFallback : Bool) (session : SessionState) (e : JsError)
    (h1 : abortClassifier e = false)
    (h2 : fallbackClassifier e disableFallback = true) :
    handleStartSessionError abortClassifier fallbackClassifier
        disableFallback true session e = .fellBackTo session ∧
    (∀ s2, handleStartSessionError abortClassifier fallbackClassifier
        disableFallback true session e = .fellBackTo s2 →
      s2.conversationHistory = session.conversationHistory) ∧
    geminiRetryLoop 5 (List.replicate 5 (.httpError 429 "RESOURCE_EXHAUSTED")) 0 =
      .failure (geminiApiError 429 "RESOURCE_EXHAUSTED") 5 ∧
    isRateLimitError (geminiApiError 429 "RESOURCE_EXHAUSTED") = true := by
  have hmain : handleStartSessionError abortClassifier fallbackClassifier
      disableFallback true session e = .fellBackTo session := by
    simp [handleStartSessionError, h1, h2]
  refine ⟨hmain, fun s2 hs2 => ?_, by decide, by decide⟩
  rw [hmain] at hs2
  cases hs2
  rfl

/-- Witness for C2 with a constantly-false abort classifier, a
constantly-true fallback classifier, and a one-turn session. -/
theorem startSession_fallback_same_session_witness :
    handleStartSessionError (fun _ => false) (fun _ _ => true) false true
        ⟨some "mem-1", [⟨"user", "hi"⟩]⟩ ⟨"Gemini API error: 429 - boom"⟩ =
      .fellBackTo ⟨some "mem-1", [⟨"user", "hi"⟩]⟩ :=
  (startSession_fallback_same_session (fun _ => false) (fun _ _ => true) false
      ⟨some "mem-1", [⟨"user", "hi"⟩]⟩ ⟨"Gemini API error: 429 - boom"⟩
      rfl rfl).1

/-- C3.  An abort error caught in `startSession` is rethrown immediately
and the fallback agent is never invoked, whatever the fallback
classifier, setting and configuration say; cancellation is never turned
into a fallback. -/
theorem startSession_abort_propagates
    (abortClassifier : JsError → Bool) (fallbackClassifier : JsError → Bool → Bool)
    (disableFallback fallbackConfigured : Bool)
    (session : SessionState) (e : JsError)
    (h : abortClassifier e = true) :
    handleStartSessionError abortClassifier fallbackClassifier
        disableFallback fallbackConfigured session e = .rethrown e ∧
    ∀ s2, handleStartSessionError abortClassifier fallbackClassifier
        disableFallback fallbackConfigured session e ≠ .fellBackTo s2 := by
  have hmain : handleStartSessionError abortClassifier fallbackClassifier
      disableFallback fallbackConfigured session e = .rethrown e := by
    simp [handleStartSessionError, h]
  exact ⟨hmain, fun s2 hcontra => by rw [hmain] at hcontra; cases hcontra⟩

/-- Witness for C3: with everything configured in favour of fallback, an
abort-classified error still propagates. -/
theorem startSession_abort_propagates_witness :
    handleStartSessionError (fun _ => true) (fun _ _ => true) false true
        ⟨none, []⟩ ⟨"AbortError"⟩ = .rethrown ⟨"AbortError"⟩ :=
  (startSession_abort_propagates (fun _ => true) (fun _ _ => true) false true
      ⟨none, []⟩ ⟨"AbortError"⟩ rfl).1

/-- The retry loop never accounts for more requests than `maxAttempts`,
whatever the fetch outcomes. -/
lemma geminiRetryLoop_requests_le (maxAttempts : Nat) :
    ∀ (outs : List FetchOutcome) (attempt : Nat), attempt ≤ maxAttempts →
      requestCount (geminiRetryLoop maxAttempts outs attempt) ≤ maxAttempts := by
  intro outs
  induction outs with
  | nil =>
    intro attempt h
    exact h
  | cons o rest ih =>
    intro attempt h
    cases o with
    | ok data =>
      rw [geminiRetryLoop]
      split
      · rename_i hlt
        exact hlt
      · exact h
    | httpError status errorText =>
      rw [geminiRetryLoop]
      split
      · rename_i hlt
        split
        · exact ih (attempt + 1) hlt
        · split
          · exact ih (attempt + 1) hlt
          · exact hlt
      · exact h
    | thrown e =>
      rw [geminiRetryLoop]
      split
      · rename_i hlt
        split
        · exact ih (attempt + 1) hlt
        · exact hlt
      · exact h

/-- C4.  `queryGeminiMultiTurn` issues at most `maxAttempts` requests
(source default 5); a thrown error not classified as rate limit, or a
non-429 response not classified as rate limit, is rethrown with no
further attempt; and a rate-limited outcome on the final attempt is
thrown rather than retried. -/
theorem queryGeminiMultiTurn_retry_spec (maxAttempts : Nat) :
    (∀ outcomes, requestCount (queryGeminiMultiTurn maxAttempts outcomes) ≤ maxAttempts) ∧
    (∀ (e : JsError) (rest : List FetchOutcome) (attempt : Nat),
      attempt < maxAttempts → isRateLimitError e = false →
      geminiRetryLoop maxAttempts (.thrown e :: rest) attempt =
        .failure e (attempt + 1)) ∧
    (∀ (status : Nat) (errorText : String) (rest : List FetchOutcome) (attempt : Nat),
      attempt < maxAttempts → status ≠ 429 →
      isRateLimitError (geminiApiError status errorText) = false →
      geminiRetryLoop maxAttempts (.httpError status errorText :: rest) attempt =
        .failure (geminiApiError status errorText) (attempt + 1)) ∧
    (∀ (e : JsError) (rest : List FetchOutcome), 0 < maxAttempts →
      isRateLimitError e = true →
      geminiRetryLoop maxAttempts (.thrown e :: rest) (maxAttempts - 1) =
        .failure e maxAttempts) ∧
    (∀ (errorText : String) (rest : List FetchOutcome), 0 < maxAttempts →
      geminiRetryLoop maxAttempts (.httpError 429 errorText :: rest) (maxAttempts - 1) =
        .failure (geminiApiError 429 errorText) maxAttempts) := by
  refine ⟨fun outcomes => geminiRetryLoop_requests_le maxAttempts outcomes 0 (Nat.zero_le _),
    fun e rest attempt hlt hrl => ?_, fun status errorText rest attempt hlt h429 hrl => ?_,
    fun e rest hpos hrl => ?_, fun errorText rest hpos => ?_⟩
  · simp [geminiRetryLoop, hlt, hrl]
  · have h429b : (status == 429) = false := by
      simp [h429]
    simp [geminiRetryLoop, hlt, h429b, hrl]
  · have hsub : maxAttempts - 1 < maxAttempts := Nat.sub_lt hpos Nat.one_pos
    have hnot : ¬(maxAttempts - 1 + 1 < maxAttempts) := by omega
    simp [geminiRetryLoop, hsub, hnot, hrl]
    omega
  · have hsub : maxAttempts - 1 < maxAttempts := Nat.sub_lt hpos Nat.one_pos
    have hnot : ¬(maxAttempts - 1 + 1 < maxAttempts) := by omega
    simp [geminiRetryLoop, hsub, hnot]
    omega

/-- Witness for C4 at the default budget of five attempts: the request
count stays at five even with nine queued 429 outcomes; a non-rate-limit
thrown error and a non-rate-limit 500 response fail on the first
attempt; a rate-limit error on the fifth (final) attempt is thrown. -/
theorem queryGeminiMultiTurn_retry_spec_witness :
    requestCount (queryGeminiMultiTurn 5
      (List.replicate 9 (.httpError 429 "quota"))) ≤ 5 ∧
    geminiRetryLoop 5 [.thrown ⟨"boom"⟩] 0 = .failure ⟨"boom"⟩ 1 ∧
    geminiRetryLoop 5 [.httpError 500 "server fell over"] 0 =
      .failure (geminiApiError 500 "server fell over") 1 ∧
    geminiRetryLoop 5 [.thrown ⟨"429 Too Many Requests"⟩] 4 =
      .failure ⟨"429 Too Many Requests"⟩ 5 :=
  ⟨(queryGeminiMultiTurn_retry_spec 5).1 (List.replicate 9 (.httpError 429 "quota")),
   (queryGeminiMultiTurn_retry_spec 5).2.1 ⟨"boom"⟩ [] 0 (by decide) (by decide),
   (queryGeminiMultiTurn_retry_spec 5).2.2.1 500 "server fell over" [] 0
     (by decide) (by decide) (by decide),
   (queryGeminiMultiTurn_retry_spec 5).2.2.2.1 ⟨"429 Too Many Requests"⟩ []
     (by decide) (by decide)⟩

/-- Embeds the init-response handling in `GeminiAgent.startSession`: a
truthy (non-empty) content string is appended as the assistant turn;
empty content gets the placeholder assistant turn so that the session
continues to the message-processing loop instead of aborting. -/
def appendInitResponse (history : List ConversationMessage)
    (content : String) : List ConversationMessage :=
  if !content.isEmpty then
    history ++ [⟨"assistant", content⟩]
  else
    history ++ [⟨"assistant", "<acknowledged>"⟩]

/-- A part kept by the content filter contributes a non-empty text, so
the joined content of a non-empty filtered list is non-empty. -/
lemma join_filtered_parts_ne_empty (ps : List GeminiPart)
    (hne : ps.filter partIsContent ≠ []) :
    (String.join ((ps.filter partIsContent).map
      (fun p => p.text.getD ""))).isEmpty = false := by
  obtain ⟨p, rest, hcons⟩ : ∃ p rest, ps.filter partIsContent = p :: rest := by
    cases h : ps.filter partIsContent with
    | nil => exact absurd h hne
    | cons a l => exact ⟨a, l, rfl⟩
  have hp : partIsContent p = true :=
    List.of_mem_filter (hcons ▸ List.mem_cons_self p rest)
  have htext : ¬((p.text.getD "") = "") := by
    intro hcontra
    unfold partIsContent at hp
    rw [hcontra] at hp
    simp at hp
    exact absurd hp.2 (by decide)
  rw [Bool.eq_false_iff]
  intro hempty
  rw [String.isEmpty_iff] at hempty
  have hdata := congrArg String.data hempty
  rw [String.join_eq, hcons] at hdata
  simp at hdata
  exact htext (String.ext hdata.1)

/-- C7.  `parseGeminiResponse` is total (never throws): its content is
the concatenation of the non-thought text parts of the first candidate;
when no such part exists it returns empty content and no token count
instead of an error; when such parts exist the reported token usage is
propagated.  An empty init response makes `startSession` append the
placeholder assistant turn (one message, like any successful init turn),
continuing to the queued messages rather than aborting. -/
theorem parseGeminiResponse_spec (data : GeminiResponse) :
    (parseGeminiResponse data).content =
      String.join (((firstCandidateParts data).filter partIsContent).map
        (fun p => p.text.getD "")) ∧
    ((firstCandidateParts data).filter partIsContent = [] →
      parseGeminiResponse data = ⟨"", none⟩) ∧
    ((firstCandidateParts data).filter partIsContent ≠ [] →
      (parseGeminiResponse data).tokensUsed =
        data.usageMetadata.bind (fun u => u.totalTokenCount)) ∧
    (∀ history, appendInitResponse history "" =
      history ++ [⟨"assistant", "<acknowledged>"⟩]) ∧
    (∀ history content,
      (appendInitResponse history content).length = history.length + 1) := by
  refine ⟨?_, fun hnil => ?_, fun hne => ?_, fun history => rfl, fun history content => ?_⟩
  · unfold parseGeminiResponse
    dsimp only
    split
    · rename_i hempty
      rw [String.isEmpty_iff] at hempty
      exact hempty.symm
    · rfl
  · unfold parseGeminiResponse
    dsimp only
    rw [hnil]
    rfl
  · unfold parseGeminiResponse
    dsimp only
    rw [if_neg]
    intro hcontra
    rw [join_filtered_parts_ne_empty (firstCandidateParts data) hne] at hcontra
    cases hcontra
  · unfold appendInitResponse
    split <;> simp

/-- Witness for C7 on a thought-only response: the filter is empty, the
parse degrades to empty content, and the init turn still appends exactly
the placeholder message. -/
theorem parseGeminiResponse_spec_witness :
    parseGeminiResponse
      ⟨some [⟨some ⟨some [⟨some "mulling it over", some true⟩]⟩, some "STOP"⟩],
        some ⟨some 17⟩⟩ = ⟨"", none⟩ ∧
    appendInitResponse [⟨"user", "init"⟩] "" =
      [⟨"user", "init"⟩, ⟨"assistant", "<acknowledged>"⟩] :=
  ⟨(parseGeminiResponse_spec
      ⟨some [⟨some ⟨some [⟨some "mulling it over", some true⟩]⟩, some "STOP"⟩],
        some ⟨some 17⟩⟩).2.1 (by decide),
   (parseGeminiResponse_spec
      ⟨some [⟨some ⟨some [⟨some "mulling it over", some true⟩]⟩, some "STOP"⟩],
        some ⟨some 17⟩⟩).2.2.2.1 [⟨"user", "init"⟩]⟩

/-- Modelled from the spec: `SessionManager.ensureMemorySessionId` (the
SessionManager module is not among the provided sources; the spec says
`memory_session_id` is unique and assigned lazily on first successful
agent response for stateless providers).  A session without an id gets
the freshly generated one; an existing id is kept. -/
def ensureMemorySessionId (fresh : String) (s : SessionState) : SessionState :=
  match s.memorySessionId with
  | some _ => s
  | none => { s with memorySessionId := some fresh }

/-- How the init-turn query of `startSession` can end: the parsed
response (possibly with empty content), or a thrown error. -/
inductive InitQueryResult
  | returned (response : ParsedResponse)
  | threw (e : JsError)

/-- Embeds the init phase of `GeminiAgent.startSession` for the stateless
Gemini provider: push the init prompt, run the init query; when it
returns (with or without content) call `ensureMemorySessionId` before
any queued message is processed, then append the assistant turn or the
placeholder; when it throws, propagate without assigning. -/
def geminiInitPhase (fresh initPrompt : String) (s : SessionState)
    (q : InitQueryResult) : SessionState × Option JsError :=
  let s1 : SessionState :=
    { s with conversationHistory :=
        s.conversationHistory ++ [⟨"user", initPrompt⟩] }
  match q with
  | .threw e => (s1, some e)
  | .returned response =>
    let s2 := ensureMemorySessionId fresh s1
    ({ s2 with conversationHistory :=
        appendInitResponse s2.conversationHistory response.content }, none)

/-- C8.  For the stateless Gemini provider, whenever the init-turn query
returns (with or without content) `ensureMemorySessionId` runs before
the message loop, so every session that reaches the loop carries a
`memory_session_id`; when the init query throws, this path assigns
nothing. -/
theorem geminiInitPhase_memory_session_spec
    (fresh initPrompt : String) (s : SessionState) :
    (∀ response : ParsedResponse,
      (geminiInitPhase fresh initPrompt s (.returned response)).1.memorySessionId.isSome = true ∧
      (geminiInitPhase fresh initPrompt s (.returned response)).2 = none) ∧
    (∀ e : JsError,
      (geminiInitPhase fresh initPrompt s (.threw e)).1.memorySessionId = s.memorySessionId ∧
      (geminiInitPhase fresh initPrompt s (.threw e)).2 = some e) := by
  refine ⟨fun response => ⟨?_, rfl⟩, fun e => ⟨rfl, rfl⟩⟩
  cases h : s.memorySessionId <;>
    simp [geminiInitPhase, ensureMemorySessionId, h]

/-- Embeds `calculateBackoffDelay` over exact rationals: exponential
delay `baseDelayMs * 2 ^ attempt` plus a jitter of 10-20% of it, capped
at 60000 ms.  `rand` stands for the `Math.random()` draw in [0, 1). -/
def calculateBackoffDelay (attempt baseDelayMs : Nat) (rand : ℚ) : ℚ :=
  let exponentialDelay : ℚ := (baseDelayMs : ℚ) * 2 ^ attempt
  let jitter : ℚ := exponentialDelay * (1/10 + rand * (1/10))
  min (exponentialDelay + jitter) 60000

/-- One entry of `error.details` in a Gemini error payload, decoded from
JSON: the detail type tag and, when present, its `retryDelay` string. -/
structure RpcDetail where
  typeUrl : String
  retryDelay : Option String
deriving Repr, DecidableEq

/-- The detail type `extractGeminiRetryDelay` looks for. -/
def retryInfoTypeUrl : String := "type.googleapis.com/google.rpc.RetryInfo"

/-- Value of a digit string (used by the `parseFloat` model). -/
def digitsToNat (ds : List Char) : Nat :=
  ds.foldl (fun acc c => acc * 10 + (c.toNat - 48)) 0

/-- JS `parseFloat` on a string of digits and dots: longest leading
`digits [. digits]` prefix; a string with no leading digit and no
fractional digit (ending up NaN in JS) yields `none`. -/
def parseFloatQ (cs : List Char) : Option ℚ :=
  let intDigits := cs.takeWhile Char.isDigit
  let rest := cs.drop intDigits.length
  match rest with
  | '.' :: rest2 =>
    let fracDigits := rest2.takeWhile Char.isDigit
    if intDigits.isEmpty && fracDigits.isEmpty then none
    else some ((digitsToNat intDigits : ℚ) +
      (digitsToNat fracDigits : ℚ) / (10 : ℚ) ^ fracDigits.length)
  | _ => if intDigits.isEmpty then none else some ((digitsToNat intDigits : ℚ))

/-- The regex of `extractGeminiRetryDelay`: the whole string is one or
more characters of `[0-9.]` followed by a final letter s; returns the
captured number characters. -/
def matchDelayString (s : String) : Option (List Char) :=
  match s.data.reverse with
  | 's' :: revNum =>
    let numChars := revNum.reverse
    if !numChars.isEmpty && numChars.all (fun c => c.isDigit || c == '.') then
      some numChars
    else none
  | _ => none

/-- A JS number as `extractGeminiRetryDelay` can yield one: a real
value, or the NaN that `parseFloat` produces on an all-dots capture and
that `Math.ceil(NaN * 1000) + 1000` keeps as NaN. -/
inductive JsNum
  | nan
  | num (q : ℚ)
deriving Repr, DecidableEq

/-- Embeds `extractGeminiRetryDelay` on the decoded `error.details`
list: scanning stops at the first RetryInfo detail whose `retryDelay`
string matches the regex, and the function immediately returns
`Math.ceil(parseFloat(capture) * 1000) + 1000` - the exact delay for a
capture parsing to N seconds, and NaN when `parseFloat` yields NaN (an
all-dots capture such as the one in retryDelay ".s").  A non-RetryInfo
detail, an absent or non-string `retryDelay`, or a regex mismatch keeps
scanning; finding nothing yields `none` (as does unparseable JSON,
modelled as an empty detail list). -/
def extractGeminiRetryDelay : List RpcDetail → Option JsNum
  | [] => none
  | d :: rest =>
    if d.typeUrl == retryInfoTypeUrl then
      match d.retryDelay with
      | some s =>
        match matchDelayString s with
        | some numChars =>
          match parseFloatQ numChars with
          | some q => some (.num ((⌈q * 1000⌉ + 1000 : ℤ) : ℚ))
          | none => some .nan
        | none => extractGeminiRetryDelay rest
      | none => extractGeminiRetryDelay rest
    else
      extractGeminiRetryDelay rest

/-- Embeds the delay selection at the 429 site of
`queryGeminiMultiTurn`: `geminiDelay ?? calculateBackoffDelay(...)`.
The nullish-coalescing operator substitutes the backoff only for a null
suggestion, so a NaN suggested delay is kept and used as the wait. -/
def rateLimit429Delay (details : List RpcDetail)
    (attempt baseDelayMs : Nat) (rand : ℚ) : JsNum :=
  match extractGeminiRetryDelay details with
  | some d => d
  | none => .num (calculateBackoffDelay attempt baseDelayMs rand)

/-- The wait `setTimeout(resolve, delay)` actually performs for a given
delay value: a NaN delay is coerced to 0 ms. -/
def setTimeoutWait : JsNum → ℚ
  | .nan => 0
  | .num q => q

/-- Counterexample to C5 as stated: a 429 payload whose RetryInfo
retryDelay is ".s" matches the regex `[0-9.]+` followed by s, but its
capture parses to NaN, so the source returns NaN immediately and the
wait used is NaN - performed by `setTimeout` as a 0 ms wait - neither
the backoff value (5750 ms at attempt 0, base 5000 ms, random draw 1/2)
nor a `ceil(N * 1000) + 1000` override. -/
theorem retry_delay_nan_counterexample :
    rateLimit429Delay
      [⟨"type.googleapis.com/google.rpc.RetryInfo", some ".s"⟩] 0 5000 (1/2) =
      JsNum.nan ∧
    JsNum.nan ≠ JsNum.num (calculateBackoffDelay 0 5000 (1/2)) ∧
    setTimeoutWait JsNum.nan = 0 ∧
    calculateBackoffDelay 0 5000 (1/2) = 5750 := by
  refine ⟨by decide, by intro h; exact JsNum.noConfusion h, rfl, ?_⟩
  simp only [calculateBackoffDelay]
  norm_num [min_def]

/-- C5 (amended).  Every backoff delay is `baseDelay * 2 ^ attempt` plus
a jitter between 10% and 20% of that exponential term, capped at
60000 ms; the backoff is used exactly when the 429 payload carries no
regex-matching RetryInfo retryDelay.  When it carries one, scanning
stops there: a capture parsing to N seconds makes the wait exactly
`ceil(N * 1000) + 1000` ms, and a capture that `parseFloat` turns into
NaN makes the suggested delay NaN, which is used as-is and performed by
`setTimeout` as a 0 ms wait (not the backoff value). -/
theorem retry_delay_spec :
    (∀ (attempt baseDelayMs : Nat) (rand : ℚ), 0 ≤ rand → rand ≤ 1 →
      calculateBackoffDelay attempt baseDelayMs rand =
        min ((baseDelayMs : ℚ) * 2 ^ attempt +
          (baseDelayMs : ℚ) * 2 ^ attempt * (1/10 + rand * (1/10))) 60000 ∧
      calculateBackoffDelay attempt baseDelayMs rand ≤ 60000 ∧
      (baseDelayMs : ℚ) * 2 ^ attempt / 10 ≤
        (baseDelayMs : ℚ) * 2 ^ attempt * (1/10 + rand * (1/10)) ∧
      (baseDelayMs : ℚ) * 2 ^ attempt * (1/10 + rand * (1/10)) ≤
        (baseDelayMs : ℚ) * 2 ^ attempt / 5) ∧
    (∀ (details : List RpcDetail) (attempt baseDelayMs : Nat) (rand : ℚ),
      extractGeminiRetryDelay details = none →
      rateLimit429Delay details attempt baseDelayMs rand =
        JsNum.num (calculateBackoffDelay attempt baseDelayMs rand)) ∧
    (∀ (details : List RpcDetail) (attempt baseDelayMs : Nat) (rand : ℚ) (d : JsNum),
      extractGeminiRetryDelay details = some d →
      rateLimit429Delay details attempt baseDelayMs rand = d) ∧
    (∀ (numChars : List Char) (rest : List RpcDetail) (q : ℚ),
      numChars ≠ [] → numChars.all (fun c => c.isDigit || c == '.') = true →
      parseFloatQ numChars = some q →
      extractGeminiRetryDelay
        (⟨retryInfoTypeUrl, some ⟨numChars ++ ['s']⟩⟩ :: rest) =
        some (JsNum.num ((⌈q * 1000⌉ + 1000 : ℤ) : ℚ))) ∧
    (∀ (numChars : List Char) (rest : List RpcDetail)
      (attempt baseDelayMs : Nat) (rand : ℚ),
      numChars ≠ [] → numChars.all (fun c => c.isDigit || c == '.') = true →
      parseFloatQ numChars = none →
      extractGeminiRetryDelay
        (⟨retryInfoTypeUrl, some ⟨numChars ++ ['s']⟩⟩ :: rest) =
        some JsNum.nan ∧
      setTimeoutWait (rateLimit429Delay
        (⟨retryInfoTypeUrl, some ⟨numChars ++ ['s']⟩⟩ :: rest)
        attempt baseDelayMs rand) = 0) := by
  refine ⟨fun attempt baseDelayMs rand h0 h1 => ?_,
    fun details attempt baseDelayMs rand hnone => ?_,
    fun details attempt baseDelayMs rand d hsome => ?_,
    fun numChars rest q hne hok hparse => ?_,
    fun numChars rest attempt baseDelayMs rand hne hok hparse => ?_⟩
  · have he : (0 : ℚ) ≤ (baseDelayMs : ℚ) * 2 ^ attempt := by positivity
    refine ⟨rfl, min_le_right _ _, ?_, ?_⟩
    · nlinarith
    · nlinarith
  · simp [rateLimit429Delay, hnone]
  · simp [rateLimit429Delay, hsome]
  · have hmatch : matchDelayString ⟨numChars ++ ['s']⟩ = some numChars := by
      simp [matchDelayString, List.reverse_append, hne, hok]
    simp [extractGeminiRetryDelay, hmatch, hparse]
  · have hmatch : matchDelayString ⟨numChars ++ ['s']⟩ = some numChars := by
      simp [matchDelayString, List.reverse_append, hne, hok]
    have hnan : extractGeminiRetryDelay
        (⟨retryInfoTypeUrl, some ⟨numChars ++ ['s']⟩⟩ :: rest) =
        some JsNum.nan := by
      simp [extractGeminiRetryDelay, hmatch, hparse]
    exact ⟨hnan, by simp [rateLimit429Delay, hnan, setTimeoutWait]⟩

/-- Witness for C5 (amended): with retryDelay 32s the chosen wait is
exactly 33000 ms; with no RetryInfo detail the selection is the backoff
value, which stays at or under the 60000 ms cap; and with the NaN-parsing
retryDelay ".s" the performed wait is 0 ms. -/
theorem retry_delay_spec_witness :
    rateLimit429Delay [⟨"type.googleapis.com/google.rpc.RetryInfo", some "32s"⟩]
      0 5000 (1/2) = JsNum.num 33000 ∧
    rateLimit429Delay [] 0 5000 (1/2) =
      JsNum.num (calculateBackoffDelay 0 5000 (1/2)) ∧
    calculateBackoffDelay 0 5000 (1/2) ≤ 60000 ∧
    setTimeoutWait (rateLimit429Delay
      [⟨"type.googleapis.com/google.rpc.RetryInfo", some ".s"⟩] 0 5000 (1/2)) = 0 := by
  have hextract : extractGeminiRetryDelay
      [⟨"type.googleapis.com/google.rpc.RetryInfo", some "32s"⟩] =
      some (JsNum.num 33000) := by
    have h32 : parseFloatQ ['3', '2'] = some (32 : ℚ) := by
      simp [parseFloatQ, digitsToNat]
    have := (retry_delay_spec).2.2.2.1 ['3', '2'] [] 32 (by decide) (by decide) h32
    have hceil : (⌈(32 : ℚ) * 1000⌉ + 1000 : ℤ) = 33000 := by norm_num
    simpa [retryInfoTypeUrl, hceil] using this
  refine ⟨?_, (retry_delay_spec).2.1 [] 0 5000 (1/2) rfl, ?_, ?_⟩
  · exact (retry_delay_spec).2.2.1
      [⟨"type.googleapis.com/google.rpc.RetryInfo", some "32s"⟩]
      0 5000 (1/2) (JsNum.num 33000) hextract
  · exact ((retry_delay_spec).1 0 5000 (1/2) (by norm_num) (by norm_num)).2.1
  · have := ((retry_delay_spec).2.2.2.2 ['.'] [] 0 5000 (1/2)
      (by decide) (by decide) (by decide)).2
    simpa [retryInfoTypeUrl] using this

/-- Embeds the `GEMINI_RPM_LIMITS` table: free-tier requests-per-minute
budgets by model. -/
def GEMINI_RPM_LIMITS : List (String × Nat) :=
  [("gemini-2.5-flash-lite", 10),
   ("gemini-2.5-flash", 10),
   ("gemini-2.5-pro", 5),
   ("gemini-2.0-flash", 15),
   ("gemini-2.0-flash-lite", 30),
   ("gemini-2.0-flash-exp", 10),
   ("gemini-3-flash-preview", 5),
   ("gemini-3-pro-preview", 2)]

/-- The lookup `GEMINI_RPM_LIMITS[model] || 5`: the table value, or 5 for
a model not in the table (every table value is non-zero, so JS
truthiness coincides with presence). -/
def rpmForModel (model : String) : Nat :=
  (GEMINI_RPM_LIMITS.lookup model).getD 5

/-- The minimum spacing `Math.ceil(60000 / rpm) + 100` of
`enforceRateLimitForModel` (on `Nat`, `(60000 + rpm - 1) / rpm` is the
ceiling of `60000 / rpm` for the positive budgets involved). -/
def minimumDelayMs (model : String) : Nat :=
  (60000 + rpmForModel model - 1) / rpmForModel model + 100

/-- What one call of `enforceRateLimitForModel` does: how long it waits
and the value of the module-level `lastRequestTime` afterwards. -/
structure RateLimitResult where
  waitMs : Nat
  newLastRequestTime : Nat
deriving Repr, DecidableEq

/-- Embeds `enforceRateLimitForModel`.  With rate limiting disabled it
returns at once, waiting nothing and leaving `lastRequestTime` alone.
Otherwise it waits out whatever remains of the minimum spacing since the
previous request and records the post-wait time (`Date.now()` after the
`setTimeout`, idealized as exact) as the new `lastRequestTime`. -/
def enforceRateLimitForModel (model : String) (rateLimitingEnabled : Bool)
    (lastRequestTime now : Nat) : RateLimitResult :=
  match rateLimitingEnabled with
  | false => ⟨0, lastRequestTime⟩
  | true =>
    if now - lastRequestTime < minimumDelayMs model then
      ⟨minimumDelayMs model - (now - lastRequestTime),
       now + (minimumDelayMs model - (now - lastRequestTime))⟩
    else
      ⟨0, now⟩

/-- Every budget in the RPM table, and the default, is positive. -/
lemma rpmForModel_pos (model : String) : 0 < rpmForModel model := by
  rw [rpmForModel, GEMINI_RPM_LIMITS]
  simp only [List.lookup]
  repeat' split
  all_goals simp_all

/-- C6.  With rate limiting enabled, consecutive Gemini requests are at
least `ceil(60000 / RPM) + 100` ms apart: the next request is issued at
`now + waitMs`, and that is never sooner than the minimum spacing after
the recorded previous request; when called sooner than the spacing
allows, the wait is exactly the remaining time.  The spacing constant is
the ceiling of `60000 / RPM` plus the 100 ms buffer (stated as: minus
the buffer, it is the least `c` with `60000 ≤ RPM * c`), the RPM budget
defaulting to 5 for a model not in the table.  With rate limiting
disabled the call returns at once: no wait and `lastRequestTime`
untouched. -/
theorem enforceRateLimitForModel_spec (model : String) (last now : Nat) :
    enforceRateLimitForModel model false last now = ⟨0, last⟩ ∧
    (last ≤ now →
      minimumDelayMs model ≤
        (now + (enforceRateLimitForModel model true last now).waitMs) - last) ∧
    (enforceRateLimitForModel model true last now).newLastRequestTime =
      now + (enforceRateLimitForModel model true last now).waitMs ∧
    (now - last < minimumDelayMs model →
      (enforceRateLimitForModel model true last now).waitMs =
        minimumDelayMs model - (now - last)) ∧
    (∀ c : Nat, minimumDelayMs model - 100 ≤ c ↔ 60000 ≤ rpmForModel model * c) ∧
    (GEMINI_RPM_LIMITS.lookup model = none → rpmForModel model = 5) := by
  refine ⟨rfl, ?_, ?_, ?_, ?_, fun hnone => by simp [rpmForModel, hnone]⟩
  · intro hle
    simp only [enforceRateLimitForModel]
    split_ifs with h1
    · dsimp only
      omega
    · dsimp only
      omega
  · simp only [enforceRateLimitForModel]
    split_ifs with h1
    · rfl
    · dsimp only
      omega
  · intro hlt
    simp only [enforceRateLimitForModel]
    rw [if_pos hlt]
  · intro c
    have hpos := rpmForModel_pos model
    have hmin : minimumDelayMs model - 100 =
        60000 ⌈/⌉ rpmForModel model := by
      rw [minimumDelayMs]
      simp [Nat.instCeilDiv]
    rw [hmin]
    exact ceilDiv_le_iff_le_mul hpos

/-- Witness for C6 on gemini-2.5-pro (RPM 5, spacing 12100 ms): a call
7000 ms after the previous request waits the remaining 5100 ms, and the
next request goes out exactly 12100 ms after the previous one; disabled
rate limiting leaves the 7000 ms timestamp in place. -/
theorem enforceRateLimitForModel_spec_witness :
    enforceRateLimitForModel "gemini-2.5-pro" false 1000 8000 = ⟨0, 1000⟩ ∧
    enforceRateLimitForModel "gemini-2.5-pro" true 1000 8000 =
      ⟨5100, 13100⟩ ∧
    minimumDelayMs "gemini-2.5-pro" ≤
      (8000 + (enforceRateLimitForModel "gemini-2.5-pro" true 1000 8000).waitMs) - 1000 := by
  have h := enforceRateLimitForModel_spec "gemini-2.5-pro" 1000 8000
  refine ⟨h.1, ?_, h.2.1 (by decide)⟩
  have hwait := h.2.2.2.1 (by decide)
  have hnew := h.2.2.1
  have hmin : minimumDelayMs "gemini-2.5-pro" = 12100 := by decide
  rw [hmin] at hwait
  cases hres : enforceRateLimitForModel "gemini-2.5-pro" true 1000 8000 with
  | mk w n =>
    rw [hres] at hwait hnew
    simp at hwait hnew
    subst hwait
    simp at hnew
    subst hnew
    rfl
